import Mathlib

/-!
Verification of the rate-limited, fault-tolerant API access layer of the
TORN-trainer repository (src/api.py, src/utils.py, src/state/db.py).

The executor (`TornClient._request`) is shallowly embedded as a pure
function over an explicit trace of network-exchange outcomes; the durable
SQLite `keys` table is an explicit association list; the token-bucket
limiter (`TokenBucketLimiter`) is embedded over ℚ with explicit clock
readings passed as event parameters.
-/

namespace Torn

/-- Parsed JSON values, the result type of `_safe_json` in api.py
(numbers restricted to integers, which is all the access layer inspects). -/
inductive Json where
  | null : Json
  | bool (b : Bool) : Json
  | num (n : Int) : Json
  | str (s : String) : Json
  | arr (xs : List Json) : Json
  | dict (fields : List (String × Json)) : Json

/-- Python truthiness of a parsed JSON value, as used by
`data.get("error")` tests in api.py line 111. -/
def jsonTruthy : Json → Bool
  | .null => false
  | .bool b => b
  | .num n => !(n == 0)
  | .str s => !(s == "")
  | .arr xs => !xs.isEmpty
  | .dict fs => !fs.isEmpty

/-- Python `dict.get`: first binding for the key, if any. -/
def dictGet (fs : List (String × Json)) (k : String) : Option Json :=
  (fs.find? (fun p => p.1 == k)).map (fun p => p.2)

/-- Python `code in (1, 2, 10, 11)` from api.py line 113; `True == 1`
in Python, so a boolean `true` code also matches. -/
def isAuthCode : Option Json → Bool
  | some (.num n) => n == 1 || n == 2 || n == 10 || n == 11
  | some (.bool b) => b
  | _ => false

/-! ### Redaction (`_redact_query`, api.py lines 24-28)

Python's `"key=" in url` and `url.split("key=")[0]` are embedded over
character lists. -/

/-- `hasPrefixC pat s`: `pat` matches at the head of `s`. -/
def hasPrefixC : List Char → List Char → Bool
  | [], _ => true
  | _ :: _, [] => false
  | p :: ps, c :: cs => p == c && hasPrefixC ps cs

/-- Python `pat in s`: `pat` occurs somewhere in `s`. -/
def containsPat (pat : List Char) : List Char → Bool
  | [] => hasPrefixC pat []
  | c :: rest => hasPrefixC pat (c :: rest) || containsPat pat rest

/-- Python `s.split(pat)[0]`: the segment before the first occurrence of
`pat` (all of `s` when `pat` does not occur). -/
def splitBefore (pat : List Char) : List Char → List Char
  | [] => []
  | c :: rest =>
      if hasPrefixC pat (c :: rest) then [] else c :: splitBefore pat rest

/-- The credential-bearing query pattern checked in `_redact_query`. -/
def keyPat : List Char := ['k', 'e', 'y', '=']

/-- The fixed replacement segment in `_redact_query`. -/
def redactedSeg : List Char := keyPat ++ ['R', 'E', 'D', 'A', 'C', 'T', 'E', 'D']

/-- `_redact_query` from api.py: if the URL contains the key parameter,
everything from its first occurrence onward is replaced by the fixed
marker; otherwise the URL is returned unchanged. -/
def redactQuery (url : String) : String :=
  if containsPat keyPat url.data
  then String.mk (splitBefore keyPat url.data ++ redactedSeg)
  else url

/-! ### Durable credential state (src/state/db.py) -/

/-- One row of the `keys` table: stored api key and the `disabled_at`
timestamp string (`datetime('now')`). -/
structure KeysRow where
  key : String
  disabledAt : String
deriving DecidableEq

/-- The durable store, reduced to the `keys` table: association list from
key id to row (`INSERT OR REPLACE` keeps one row per id). -/
structure Db where
  keys : List (String × KeysRow)
deriving DecidableEq

/-- `mark_key_disabled` (db.py lines 85-91): INSERT OR REPLACE the row for
`id` with the api key and the current timestamp. -/
def markKeyDisabled (db : Db) (id apiKey nowStr : String) : Db :=
  ⟨(id, ⟨apiKey, nowStr⟩) :: db.keys.filter (fun p => !(p.1 == id))⟩

/-- The row stored for a key id, if any. -/
def lookupKeyRow (db : Db) (id : String) : Option KeysRow :=
  (db.keys.find? (fun p => p.1 == id)).map (fun p => p.2)

/-- `is_key_disabled` (db.py lines 94-98): `bool(row and row[0])`, i.e. a row
exists and its `disabled_at` column is a truthy (non-empty) string. -/
def isKeyDisabled (db : Db) (id : String) : Bool :=
  match lookupKeyRow db id with
  | some r => !(r.disabledAt == "")
  | none => false

/-! ### The request executor (`TornClient._request`, api.py lines 58-118) -/

/-- The in-process part of a `TornClient` relevant to `_request`:
the configured credential, the key id (`user_id or "default"`) and the
`_auth_failures` counter. -/
structure Client where
  apiKey : String
  keyId : String
  authFailures : Nat
deriving DecidableEq

/-- Per-call context: the URL without query (`TORN_BASE + path`), the query
text following the key value, and the timestamp string `datetime('now')`
used if the call disables the key. -/
structure CallCtx where
  baseUrl : String
  querySuffix : String
  nowStr : String
deriving DecidableEq

/-- The full request URL as sent on the wire: credential attached as the
first query parameter. -/
def fullUrl (ctx : CallCtx) (c : Client) : String :=
  ctx.baseUrl ++ "?key=" ++ c.apiKey ++ ctx.querySuffix

/-- One audit record written by `_log_api` (api.py lines 120-126). -/
structure AuditRecord where
  url : String
  status : Int
  result : Json

/-- Outcome of one network exchange attempt, as observed by the executor. -/
inductive Exchange where
  | netFail (msg : String) : Exchange
  | resp (status : Nat) (body : Json) : Exchange

/-- Observable side effects of one logical call: limiter permits acquired,
exchanges that produced an HTTP response, exchanges that failed at network
level, and the audit records written. -/
structure CallLog where
  permits : Nat
  httpEx : Nat
  netFails : Nat
  audits : List AuditRecord

/-- Total attempts performed (each attempt is one exchange). -/
def CallLog.attempts (l : CallLog) : Nat := l.httpEx + l.netFails

/-- Concatenation of call logs (earlier iteration first). -/
def CallLog.app (a b : CallLog) : CallLog :=
  ⟨a.permits + b.permits, a.httpEx + b.httpEx, a.netFails + b.netFails,
   a.audits ++ b.audits⟩

/-- How one logical call ends. `pyError` marks the uncaught Python
`AttributeError` raised by `data["error"].get("code")` when the error
value is truthy but not a dict; `truncated` marks running out of the
modelled exchange trace. -/
inductive CallOutcome where
  | ok (data : Json) : CallOutcome
  | httpError (status : Nat) : CallOutcome
  | netError : CallOutcome
  | configError : CallOutcome
  | authDisabled : CallOutcome
  | pyError : CallOutcome
  | truncated : CallOutcome

/-- Result of one logical call: updated client, updated store, observable
log, and outcome. -/
structure CallResult where
  client : Client
  db : Db
  log : CallLog
  outcome : CallOutcome

/-- Prepend one loop iteration's observables to a call result. -/
def addIter (a : CallLog) (r : CallResult) : CallResult :=
  ⟨r.client, r.db, a.app r.log, r.outcome⟩

/-- api.py lines 109-118: classification of a parsed payload on a
non-transient, non-401/403 status — bump the auth-failure counter and
possibly latch the key disabled when the body carries a known
auth/permission error code, but always return the payload. -/
def classifyBody (ctx : CallCtx) (c : Client) (db : Db) (body : Json) :
    Client × Db × CallOutcome :=
  match body with
  | .dict fs =>
    match dictGet fs "error" with
    | some ev =>
      if jsonTruthy ev then
        match ev with
        | .dict efs =>
          if isAuthCode (dictGet efs "code") then
            let c1 : Client := ⟨c.apiKey, c.keyId, c.authFailures + 1⟩
            let db1 := if 3 ≤ c1.authFailures
                       then markKeyDisabled db c.keyId c.apiKey ctx.nowStr
                       else db
            (c1, db1, .ok body)
          else (c, db, .ok body)
        | _ => (c, db, .pyError)
      else (c, db, .ok body)
    | none => (c, db, .ok body)
  | _ => (c, db, .ok body)

/-- api.py: `max_attempts = 5`. -/
def maxAttempts : Nat := 5

/-- The retry loop of `TornClient._request` (api.py lines 79-118), driven by
the trace of exchange outcomes: acquire a permit, perform the exchange, then
classify — network failures and 429/5xx retry with the attempt counter,
401/403 bump the auth-failure counter (latching the key disabled at 3) and
raise, anything else is classified by `classifyBody`. -/
def requestLoop (ctx : CallCtx) : Client → Db → Nat → List Exchange → CallResult
  | c, db, _, [] => ⟨c, db, ⟨1, 0, 0, []⟩, .truncated⟩
  | c, db, attempt, .netFail msg :: rest =>
      let attempt1 := attempt + 1
      if maxAttempts ≤ attempt1 then
        ⟨c, db,
         ⟨1, 0, 1, [⟨redactQuery ctx.baseUrl, -1, .dict [("error", .str msg)]⟩]⟩,
         .netError⟩
      else addIter ⟨1, 0, 1, []⟩ (requestLoop ctx c db attempt1 rest)
  | c, db, attempt, .resp status body :: rest =>
      let a : AuditRecord :=
        ⟨redactQuery (fullUrl ctx c), (status : Int), body⟩
      if status = 429 ∨ (500 ≤ status ∧ status < 600) then
        let attempt1 := attempt + 1
        if maxAttempts ≤ attempt1 then ⟨c, db, ⟨1, 1, 0, [a]⟩, .httpError status⟩
        else addIter ⟨1, 1, 0, [a]⟩ (requestLoop ctx c db attempt1 rest)
      else if status = 401 ∨ status = 403 then
        let c1 : Client := ⟨c.apiKey, c.keyId, c.authFailures + 1⟩
        let db1 := if 3 ≤ c1.authFailures
                   then markKeyDisabled db c.keyId c.apiKey ctx.nowStr
                   else db
        ⟨c1, db1, ⟨1, 1, 0, [a]⟩, .httpError status⟩
      else
        let t := classifyBody ctx c db body
        ⟨t.1, t.2.1, ⟨1, 1, 0, [a]⟩, t.2.2⟩

/-- One logical call (`TornClient._request`, api.py lines 58-118): fail fast
on a missing credential, then on a durably disabled credential — both before
any permit acquisition or exchange — otherwise run the retry loop. -/
def performCall (ctx : CallCtx) (c : Client) (db : Db) (trace : List Exchange) :
    CallResult :=
  if c.apiKey = "" then ⟨c, db, ⟨0, 0, 0, []⟩, .configError⟩
  else if isKeyDisabled db c.keyId then ⟨c, db, ⟨0, 0, 0, []⟩, .authDisabled⟩
  else requestLoop ctx c db 0 trace

/-- True when the body cannot trigger the `AttributeError` path of
api.py line 112 (a truthy non-dict `error` value). -/
def pyErrorFree : Json → Bool
  | .dict fs =>
    match dictGet fs "error" with
    | some (.dict _) => true
    | some ev => !jsonTruthy ev
    | none => true
  | _ => true

/-- True when the body carries an application-level auth/permission error in
the sense of api.py lines 111-113: a dict with a truthy `error` dict whose
`code` is in the known set. -/
def isAuthErrorBody : Json → Bool
  | .dict fs =>
    match dictGet fs "error" with
    | some (.dict efs) => jsonTruthy (.dict efs) && isAuthCode (dictGet efs "code")
    | _ => false
  | _ => false

/-- 1 when the outcome is a surfaced network error (whose final attempt wrote
the sentinel audit record), 0 otherwise. -/
def netFailAudit : CallOutcome → Nat
  | .netError => 1
  | _ => 0

/-! ### The token-bucket limiter (`TokenBucketLimiter`, utils.py lines 78-126)

Time is ℚ; clock readings are explicit event parameters (the source reads a
monotonic clock). -/

/-- The mutable state of a `TokenBucketLimiter`. -/
structure Limiter where
  capacity : ℚ
  tokens : ℚ
  refillRate : ℚ
  minSpacing : ℚ
  jitterFraction : ℚ
  lastRefill : ℚ
  lastAcquire : ℚ

/-- `TokenBucketLimiter.__init__` (utils.py lines 86-101): capacity clamped
to ≥ 1, bucket starts full, refill rate clamped to ≥ 0.001, min spacing
clamped to ≥ 0, `_last_refill` set to the current clock, `_last_acquire`
to 0. -/
def Limiter.init (capacity : Int) (refillRate minSpacing jitterFraction now0 : ℚ) :
    Limiter :=
  { capacity := ((max 1 capacity : Int) : ℚ)
    tokens := ((max 1 capacity : Int) : ℚ)
    refillRate := max (1 / 1000) refillRate
    minSpacing := max 0 minSpacing
    jitterFraction := jitterFraction
    lastRefill := now0
    lastAcquire := 0 }

/-- `TokenBucketLimiter._refill` (utils.py lines 103-109) at clock reading
`now`: no-op unless time elapsed, otherwise add `elapsed * rate` tokens
capped at capacity. -/
def Limiter.refill (l : Limiter) (now : ℚ) : Limiter :=
  if now - l.lastRefill ≤ 0 then l
  else { l with
          tokens := min l.capacity (l.tokens + (now - l.lastRefill) * l.refillRate)
          lastRefill := now }

/-- One iteration of the `acquire` wait loop (utils.py lines 113-126):
refill, then grant — debit one token and record the grant time `g` (the
second clock reading, taken after the check at reading `now`) — exactly when
`tokens >= 1.0 and spacing_needed <= 0`. Returns the new state and whether
the grant was issued. -/
def Limiter.tryAcquire (l : Limiter) (now g : ℚ) : Limiter × Bool :=
  if 1 ≤ (l.refill now).tokens ∧
      (l.refill now).minSpacing - (now - (l.refill now).lastAcquire) ≤ 0 then
    ({ (l.refill now) with
        tokens := (l.refill now).tokens - 1
        lastAcquire := g }, true)
  else (l.refill now, false)

/-- One scheduled interaction with the limiter: either a bare refill (a
failed loop iteration refills without granting) or a grant check at clock
reading `now` whose grant time, if granted, is the later reading `g`. -/
inductive LimiterEvent where
  | refillAt (now : ℚ) : LimiterEvent
  | acquireAt (now g : ℚ) : LimiterEvent

/-- A monotonic clock never runs backwards between the check reading and the
grant reading of one iteration. -/
def eventOk : LimiterEvent → Bool
  | .refillAt _ => true
  | .acquireAt now g => decide (now ≤ g)

/-- Apply one event; also yields the grant time if a token was granted. -/
def runStep (l : Limiter) : LimiterEvent → Limiter × List ℚ
  | .refillAt t => (l.refill t, [])
  | .acquireAt t g =>
      let p := l.tryAcquire t g
      (p.1, if p.2 then [g] else [])

/-- Run a sequence of events from a limiter state, collecting the grant
times in order. -/
def runEvents (l : Limiter) : List LimiterEvent → Limiter × List ℚ
  | [] => (l, [])
  | e :: es =>
      let p := runStep l e
      let q := runEvents p.1 es
      (q.1, p.2 ++ q.2)

/-- Last grant time of a grant list, defaulting to the given initial
`lastAcquire` value. -/
def lastGrant (init : ℚ) : List ℚ → ℚ
  | [] => init
  | g :: gs => lastGrant g gs

/-- `TornClient.__init__` (api.py line 48): the limiter capacity derived
from `max_requests_per_min`. -/
def clientCapacity (m : Int) : Int := min 100 (max 1 m)

/-- The limiter a `TornClient` constructs (api.py lines 47-54): clamped
capacity, refill rate `capacity / 60`, given min spacing, default jitter
fraction 0.15. -/
def clientLimiter (m : Int) (minSpacing now0 : ℚ) : Limiter :=
  Limiter.init (clientCapacity m) ((clientCapacity m : ℚ) / 60) minSpacing
    (3 / 20) now0

/-! ### Helper lemmas about the executor -/

lemma classifyBody_outcome_ok (ctx : CallCtx) (c : Client) (db : Db) (body : Json)
    (h : pyErrorFree body = true) :
    (classifyBody ctx c db body).2.2 = .ok body := by
  unfold classifyBody
  unfold pyErrorFree at h
  (repeat' split) <;> simp_all

lemma classifyBody_plain (ctx : CallCtx) (c : Client) (db : Db) (body : Json)
    (h1 : pyErrorFree body = true) (h2 : isAuthErrorBody body = false) :
    classifyBody ctx c db body = (c, db, .ok body) := by
  unfold classifyBody
  unfold pyErrorFree at h1
  unfold isAuthErrorBody at h2
  (repeat' split) <;> simp_all

lemma classifyBody_not_netError (ctx : CallCtx) (c : Client) (db : Db)
    (body : Json) :
    netFailAudit (classifyBody ctx c db body).2.2 = 0 := by
  unfold classifyBody
  (repeat' split) <;> rfl

lemma classifyBody_authFailures_le (ctx : CallCtx) (c : Client) (db : Db)
    (body : Json) :
    c.authFailures ≤ (classifyBody ctx c db body).1.authFailures := by
  unfold classifyBody
  (repeat' split) <;> first
    | exact le_refl _
    | exact Nat.le_succ _

lemma requestLoop_authFailures_le (ctx : CallCtx) (trace : List Exchange) :
    ∀ c db attempt,
      c.authFailures ≤ (requestLoop ctx c db attempt trace).client.authFailures := by
  induction trace with
  | nil => intro c db attempt; exact le_refl _
  | cons e rest ih =>
    intro c db attempt
    cases e with
    | netFail msg =>
      simp only [requestLoop]
      split
      · exact le_refl _
      · exact ih c db (attempt + 1)
    | resp status body =>
      simp only [requestLoop]
      split
      · split
        · exact le_refl _
        · exact ih c db (attempt + 1)
      · split
        · exact Nat.le_succ _
        · exact classifyBody_authFailures_le ctx c db body

lemma performCall_authFailures_le (ctx : CallCtx) (c : Client) (db : Db)
    (trace : List Exchange) :
    c.authFailures ≤ (performCall ctx c db trace).client.authFailures := by
  simp only [performCall]
  split
  · exact le_refl _
  · split
    · exact le_refl _
    · exact requestLoop_authFailures_le ctx trace c db 0

lemma requestLoop_audit_count (ctx : CallCtx) (trace : List Exchange) :
    ∀ c db attempt,
      (requestLoop ctx c db attempt trace).log.audits.length =
        (requestLoop ctx c db attempt trace).log.httpEx +
          netFailAudit (requestLoop ctx c db attempt trace).outcome := by
  induction trace with
  | nil => intro c db attempt; rfl
  | cons e rest ih =>
    intro c db attempt
    cases e with
    | netFail msg =>
      simp only [requestLoop]
      split
      · rfl
      · simp only [addIter, CallLog.app, List.length_append, List.length_nil,
          Nat.zero_add]
        rw [ih c db (attempt + 1)]
    | resp status body =>
      simp only [requestLoop]
      split
      · split
        · rfl
        · simp only [addIter, CallLog.app, List.length_append, List.length_cons,
            List.length_nil]
          rw [ih c db (attempt + 1)]
          ring
      · split
        · rfl
        · simp [classifyBody_not_netError]

lemma lookupKeyRow_mark (db : Db) (id k t : String) :
    lookupKeyRow (markKeyDisabled db id k t) id = some ⟨k, t⟩ := by
  simp [lookupKeyRow, markKeyDisabled, List.find?]

lemma isKeyDisabled_mark (db : Db) (id k t : String) (ht : t ≠ "") :
    isKeyDisabled (markKeyDisabled db id k t) id = true := by
  simp [isKeyDisabled, lookupKeyRow_mark, ht]

lemma auth_status_call (ctx : CallCtx) (c : Client) (db : Db) (s : Nat) (b : Json)
    (hk : c.apiKey ≠ "") (hd : isKeyDisabled db c.keyId = false)
    (hs : s = 401 ∨ s = 403) :
    performCall ctx c db [.resp s b] =
      ⟨⟨c.apiKey, c.keyId, c.authFailures + 1⟩,
       (if 3 ≤ c.authFailures + 1
        then markKeyDisabled db c.keyId c.apiKey ctx.nowStr else db),
       ⟨1, 1, 0, [⟨redactQuery (fullUrl ctx c), (s : Int), b⟩]⟩,
       .httpError s⟩ := by
  rcases hs with h | h <;> subst h <;>
    simp [performCall, hk, hd, requestLoop, maxAttempts]

/-! ### Claim theorems: the request executor -/

/-- C9: for every logical call, an empty configured credential fails
immediately with a configuration error, and a credential whose durable state
reads disabled fails immediately with an auth-disabled error; in both cases
no limiter permit is acquired, no network exchange is performed and no audit
record is written. -/
theorem c9_fail_fast (ctx : CallCtx) (c : Client) (db : Db)
    (trace : List Exchange) :
    (c.apiKey = "" →
      performCall ctx c db trace = ⟨c, db, ⟨0, 0, 0, []⟩, .configError⟩) ∧
    (c.apiKey ≠ "" → isKeyDisabled db c.keyId = true →
      performCall ctx c db trace = ⟨c, db, ⟨0, 0, 0, []⟩, .authDisabled⟩) := by
  constructor
  · intro h
    simp [performCall, h]
  · intro h hd
    simp [performCall, h, hd]

/-- Witness for C9 at concrete inputs. -/
theorem c9_fail_fast_witness :
    (("" : String) = "" ∧
      performCall ⟨"https://api.torn.com/user/1", "", "TS"⟩ ⟨"", "1", 0⟩ ⟨[]⟩ [] =
        ⟨⟨"", "1", 0⟩, ⟨[]⟩, ⟨0, 0, 0, []⟩, .configError⟩) ∧
    (("K" : String) ≠ "" ∧
      isKeyDisabled ⟨[("1", ⟨"K", "TS"⟩)]⟩ "1" = true ∧
      performCall ⟨"https://api.torn.com/user/1", "", "TS"⟩ ⟨"K", "1", 0⟩
          ⟨[("1", ⟨"K", "TS"⟩)]⟩ [] =
        ⟨⟨"K", "1", 0⟩, ⟨[("1", ⟨"K", "TS"⟩)]⟩, ⟨0, 0, 0, []⟩, .authDisabled⟩) :=
  ⟨⟨rfl, (c9_fail_fast _ _ _ _).1 rfl⟩,
   ⟨by decide, by decide, (c9_fail_fast _ _ _ _).2 (by decide) (by decide)⟩⟩

/-- C2: with the hard-coded budget of 5 attempts, a response sequence
429, 429, 200 yields the 200 payload after exactly 3 attempts (whatever
exchanges might follow), and five consecutive 429 responses raise the
HTTP-level error after exactly 5 attempts, never performing a 6th exchange
(whatever exchanges might follow). -/
theorem c2_retry_budget (ctx : CallCtx) (c : Client) (db : Db)
    (b1 b2 b200 : Json) (rest : List Exchange)
    (hk : c.apiKey ≠ "") (hd : isKeyDisabled db c.keyId = false)
    (hb : pyErrorFree b200 = true) :
    ((performCall ctx c db
        ([.resp 429 b1, .resp 429 b2, .resp 200 b200] ++ rest)).outcome =
          .ok b200 ∧
     (performCall ctx c db
        ([.resp 429 b1, .resp 429 b2, .resp 200 b200] ++ rest)).log.attempts = 3 ∧
     (performCall ctx c db
        ([.resp 429 b1, .resp 429 b2, .resp 200 b200] ++ rest)).log.permits = 3) ∧
    (∀ b3 b4 b5 rest2,
      (performCall ctx c db
        ([.resp 429 b1, .resp 429 b2, .resp 429 b3, .resp 429 b4, .resp 429 b5]
          ++ rest2)).outcome = .httpError 429 ∧
      (performCall ctx c db
        ([.resp 429 b1, .resp 429 b2, .resp 429 b3, .resp 429 b4, .resp 429 b5]
          ++ rest2)).log.attempts = 5 ∧
      (performCall ctx c db
        ([.resp 429 b1, .resp 429 b2, .resp 429 b3, .resp 429 b4, .resp 429 b5]
          ++ rest2)).log.permits = 5) := by
  constructor
  · simp [performCall, hk, hd, requestLoop, maxAttempts, addIter, CallLog.app,
      CallLog.attempts, classifyBody_outcome_ok ctx c db b200 hb]
  · intro b3 b4 b5 rest2
    simp [performCall, hk, hd, requestLoop, maxAttempts, addIter, CallLog.app,
      CallLog.attempts]

/-- Witness for C2 at concrete inputs. -/
theorem c2_retry_budget_witness :
    (("K" : String) ≠ "" ∧ isKeyDisabled ⟨[]⟩ "1" = false ∧
      pyErrorFree (.dict [("ok", .bool true)]) = true) ∧
    ((performCall ⟨"b", "", "TS"⟩ ⟨"K", "1", 0⟩ ⟨[]⟩
        ([.resp 429 .null, .resp 429 .null,
          .resp 200 (.dict [("ok", .bool true)])] ++ [])).outcome =
            .ok (.dict [("ok", .bool true)]) ∧
     (performCall ⟨"b", "", "TS"⟩ ⟨"K", "1", 0⟩ ⟨[]⟩
        ([.resp 429 .null, .resp 429 .null,
          .resp 200 (.dict [("ok", .bool true)])] ++ [])).log.attempts = 3 ∧
     (performCall ⟨"b", "", "TS"⟩ ⟨"K", "1", 0⟩ ⟨[]⟩
        ([.resp 429 .null, .resp 429 .null,
          .resp 200 (.dict [("ok", .bool true)])] ++ [])).log.permits = 3) ∧
    (∀ b3 b4 b5 rest2,
      (performCall ⟨"b", "", "TS"⟩ ⟨"K", "1", 0⟩ ⟨[]⟩
        ([.resp 429 .null, .resp 429 .null, .resp 429 b3, .resp 429 b4,
          .resp 429 b5] ++ rest2)).outcome = .httpError 429 ∧
      (performCall ⟨"b", "", "TS"⟩ ⟨"K", "1", 0⟩ ⟨[]⟩
        ([.resp 429 .null, .resp 429 .null, .resp 429 b3, .resp 429 b4,
          .resp 429 b5] ++ rest2)).log.attempts = 5 ∧
      (performCall ⟨"b", "", "TS"⟩ ⟨"K", "1", 0⟩ ⟨[]⟩
        ([.resp 429 .null, .resp 429 .null, .resp 429 b3, .resp 429 b4,
          .resp 429 b5] ++ rest2)).log.permits = 5) := by
  refine ⟨⟨by decide, by decide, by decide⟩, ?_⟩
  exact c2_retry_budget ⟨"b", "", "TS"⟩ ⟨"K", "1", 0⟩ ⟨[]⟩ .null .null
    (.dict [("ok", .bool true)]) [] (by decide) (by decide) (by decide)

/-- C5 counterexample: a call ending in a plain successful 200 response does
NOT reset the auth-failure counter to zero — a client whose counter is 2
still has 2 after the successful call (the source never writes
`self._auth_failures = 0`). -/
theorem c5_counterexample :
    (performCall ⟨"https://api.torn.com/user/1", "", "TS"⟩ ⟨"SECRET", "1", 2⟩
        ⟨[]⟩ [.resp 200 (.dict [("ok", .bool true)])]).outcome =
      .ok (.dict [("ok", .bool true)]) ∧
    (performCall ⟨"https://api.torn.com/user/1", "", "TS"⟩ ⟨"SECRET", "1", 2⟩
        ⟨[]⟩ [.resp 200 (.dict [("ok", .bool true)])]).client.authFailures = 2 :=
  ⟨rfl, rfl⟩

/-- C5 amended: a call ending in a successful response (status not
429/5xx/401/403, payload without an application-level auth/permission error)
returns the payload with the auth-failure counter UNCHANGED — it is not
reset to zero; indeed the counter never decreases across any call. -/
theorem c5_amended_counter_unchanged (ctx : CallCtx) (c : Client) (db : Db)
    (s : Nat) (body : Json)
    (hk : c.apiKey ≠ "") (hd : isKeyDisabled db c.keyId = false)
    (hs1 : ¬(s = 429 ∨ (500 ≤ s ∧ s < 600))) (hs2 : ¬(s = 401 ∨ s = 403))
    (h1 : pyErrorFree body = true) (h2 : isAuthErrorBody body = false) :
    performCall ctx c db [.resp s body] =
      ⟨c, db, ⟨1, 1, 0, [⟨redactQuery (fullUrl ctx c), (s : Int), body⟩]⟩,
       .ok body⟩ ∧
    (∀ trace, c.authFailures ≤ (performCall ctx c db trace).client.authFailures) := by
  constructor
  · simp [performCall, hk, hd, requestLoop, maxAttempts, hs1, hs2,
      classifyBody_plain ctx c db body h1 h2]
  · intro trace
    exact performCall_authFailures_le ctx c db trace

/-- Witness for the amended C5 at concrete inputs. -/
theorem c5_amended_counter_unchanged_witness :
    (("K" : String) ≠ "" ∧ isKeyDisabled ⟨[]⟩ "1" = false ∧
      ¬((200 : Nat) = 429 ∨ (500 ≤ 200 ∧ 200 < 600)) ∧
      ¬((200 : Nat) = 401 ∨ (200 : Nat) = 403) ∧
      pyErrorFree (.dict [("ok", .bool true)]) = true ∧
      isAuthErrorBody (.dict [("ok", .bool true)]) = false) ∧
    (performCall ⟨"b", "", "TS"⟩ ⟨"K", "1", 2⟩ ⟨[]⟩
        [.resp 200 (.dict [("ok", .bool true)])] =
      ⟨⟨"K", "1", 2⟩, ⟨[]⟩,
       ⟨1, 1, 0, [⟨redactQuery (fullUrl ⟨"b", "", "TS"⟩ ⟨"K", "1", 2⟩), (200 : Int),
         .dict [("ok", .bool true)]⟩]⟩,
       .ok (.dict [("ok", .bool true)])⟩ ∧
     (∀ trace, (2 : Nat) ≤
        (performCall ⟨"b", "", "TS"⟩ ⟨"K", "1", 2⟩ ⟨[]⟩ trace).client.authFailures)) := by
  refine ⟨⟨by decide, by decide, by decide, by decide, by decide, by decide⟩, ?_⟩
  exact c5_amended_counter_unchanged ⟨"b", "", "TS"⟩ ⟨"K", "1", 2⟩ ⟨[]⟩ 200
    (.dict [("ok", .bool true)]) (by decide) (by decide) (by decide) (by decide)
    (by decide) (by decide)

/-- C6 counterexample: the trace network-failure-then-200 performs 2 attempts
but writes only 1 audit record — a non-final network-level failure produces
no audit record (api.py only writes the sentinel record when attempts are
exhausted), refuting one-record-per-attempt. -/
theorem c6_counterexample :
    (performCall ⟨"https://api.torn.com/user/1", "", "TS"⟩ ⟨"SECRET", "1", 0⟩
        ⟨[]⟩ [.netFail "timeout",
              .resp 200 (.dict [("ok", .bool true)])]).log.attempts = 2 ∧
    (performCall ⟨"https://api.torn.com/user/1", "", "TS"⟩ ⟨"SECRET", "1", 0⟩
        ⟨[]⟩ [.netFail "timeout",
              .resp 200 (.dict [("ok", .bool true)])]).log.audits.length = 1 ∧
    (performCall ⟨"https://api.torn.com/user/1", "", "TS"⟩ ⟨"SECRET", "1", 0⟩
        ⟨[]⟩ [.netFail "timeout",
              .resp 200 (.dict [("ok", .bool true)])]).outcome =
      .ok (.dict [("ok", .bool true)]) :=
  ⟨rfl, rfl, rfl⟩

/-- C6 amended: every attempt that receives an HTTP response writes exactly
one audit record, and a network-level failure writes one (the sentinel
record) only on the final, exhausting attempt — so the audit-record count of
a call equals its HTTP-response attempts plus one more exactly when the call
surfaces a network error. -/
theorem c6_amended_audit_count (ctx : CallCtx) (c : Client) (db : Db)
    (trace : List Exchange) :
    (performCall ctx c db trace).log.audits.length =
      (performCall ctx c db trace).log.httpEx +
        netFailAudit (performCall ctx c db trace).outcome := by
  simp only [performCall]
  split
  · rfl
  · split
    · rfl
    · exact requestLoop_audit_count ctx trace c db 0

/-- C7: a 200 response whose payload is an error object with a code in the
known auth/permission set (1, 2, 10, 11) updates the auth-failure counter
and the durable disable latch exactly as a 401 response does, but the call
returns the payload to the caller instead of raising. -/
theorem c7_embedded_auth_error (ctx : CallCtx) (c : Client) (db : Db)
    (code : Int) (b : Json)
    (hk : c.apiKey ≠ "") (hd : isKeyDisabled db c.keyId = false)
    (hc : code = 1 ∨ code = 2 ∨ code = 10 ∨ code = 11) :
    (performCall ctx c db
        [.resp 200 (.dict [("error", .dict [("code", .num code)])])]).client =
      (performCall ctx c db [.resp 401 b]).client ∧
    (performCall ctx c db
        [.resp 200 (.dict [("error", .dict [("code", .num code)])])]).db =
      (performCall ctx c db [.resp 401 b]).db ∧
    (performCall ctx c db
        [.resp 200 (.dict [("error", .dict [("code", .num code)])])]).outcome =
      .ok (.dict [("error", .dict [("code", .num code)])]) := by
  rw [auth_status_call ctx c db 401 b hk hd (Or.inl rfl)]
  rcases hc with h | h | h | h <;> subst h <;>
    simp [performCall, hk, hd, requestLoop, maxAttempts, classifyBody, dictGet,
      jsonTruthy, isAuthCode]

/-- Witness for C7 at concrete inputs. -/
theorem c7_embedded_auth_error_witness :
    (("K" : String) ≠ "" ∧ isKeyDisabled ⟨[]⟩ "1" = false ∧
      ((2 : Int) = 1 ∨ (2 : Int) = 2 ∨ (2 : Int) = 10 ∨ (2 : Int) = 11)) ∧
    ((performCall ⟨"b", "", "TS"⟩ ⟨"K", "1", 0⟩ ⟨[]⟩
        [.resp 200 (.dict [("error", .dict [("code", .num 2)])])]).client =
      (performCall ⟨"b", "", "TS"⟩ ⟨"K", "1", 0⟩ ⟨[]⟩ [.resp 401 .null]).client ∧
     (performCall ⟨"b", "", "TS"⟩ ⟨"K", "1", 0⟩ ⟨[]⟩
        [.resp 200 (.dict [("error", .dict [("code", .num 2)])])]).db =
      (performCall ⟨"b", "", "TS"⟩ ⟨"K", "1", 0⟩ ⟨[]⟩ [.resp 401 .null]).db ∧
     (performCall ⟨"b", "", "TS"⟩ ⟨"K", "1", 0⟩ ⟨[]⟩
        [.resp 200 (.dict [("error", .dict [("code", .num 2)])])]).outcome =
      .ok (.dict [("error", .dict [("code", .num 2)])])) :=
  ⟨⟨by decide, by decide, Or.inr (Or.inl rfl)⟩,
   c7_embedded_auth_error ⟨"b", "", "TS"⟩ ⟨"K", "1", 0⟩ ⟨[]⟩ 2 .null
     (by decide) (by decide) (Or.inr (Or.inl rfl))⟩

/-- C1: on one executor instance with a configured, not-disabled credential
and a fresh auth-failure counter, three consecutive attempts answered with
status 401 or 403 leave the credential durably marked disabled after the
third — the keys row stores the credential under its identifier together
with the timestamp — and every subsequent logical call on that credential
fails with the auth-disabled error while acquiring no limiter permit,
performing no exchange and writing no audit record (and leaving the
durable state unchanged, so this holds for all later calls as well). -/
theorem c1_three_strikes (ctx1 ctx2 ctx3 : CallCtx) (k kid : String) (db0 : Db)
    (s1 s2 s3 : Nat) (b1 b2 b3 : Json)
    (hk : k ≠ "") (hd : isKeyDisabled db0 kid = false)
    (hs1 : s1 = 401 ∨ s1 = 403) (hs2 : s2 = 401 ∨ s2 = 403)
    (hs3 : s3 = 401 ∨ s3 = 403) (ht : ctx3.nowStr ≠ "") :
    let r1 := performCall ctx1 ⟨k, kid, 0⟩ db0 [.resp s1 b1]
    let r2 := performCall ctx2 r1.client r1.db [.resp s2 b2]
    let r3 := performCall ctx3 r2.client r2.db [.resp s3 b3]
    r1.outcome = .httpError s1 ∧ r2.outcome = .httpError s2 ∧
    r3.outcome = .httpError s3 ∧
    r1.db = db0 ∧ r2.db = db0 ∧
    r3.client.authFailures = 3 ∧
    r3.db = markKeyDisabled db0 kid k ctx3.nowStr ∧
    lookupKeyRow r3.db kid = some ⟨k, ctx3.nowStr⟩ ∧
    ∀ ctx4 trace4, performCall ctx4 r3.client r3.db trace4 =
      ⟨r3.client, r3.db, ⟨0, 0, 0, []⟩, .authDisabled⟩ := by
  intro r1 r2 r3
  have e1 : r1 = ⟨⟨k, kid, 1⟩, db0,
      ⟨1, 1, 0, [⟨redactQuery (fullUrl ctx1 ⟨k, kid, 0⟩), (s1 : Int), b1⟩]⟩,
      .httpError s1⟩ := by
    show performCall ctx1 ⟨k, kid, 0⟩ db0 [.resp s1 b1] = _
    rw [auth_status_call ctx1 ⟨k, kid, 0⟩ db0 s1 b1 hk hd hs1]
    norm_num
  have e2 : r2 = ⟨⟨k, kid, 2⟩, db0,
      ⟨1, 1, 0, [⟨redactQuery (fullUrl ctx2 ⟨k, kid, 1⟩), (s2 : Int), b2⟩]⟩,
      .httpError s2⟩ := by
    show performCall ctx2 r1.client r1.db [.resp s2 b2] = _
    rw [e1]
    rw [auth_status_call ctx2 ⟨k, kid, 1⟩ db0 s2 b2 hk hd hs2]
    norm_num
  have e3 : r3 = ⟨⟨k, kid, 3⟩, markKeyDisabled db0 kid k ctx3.nowStr,
      ⟨1, 1, 0, [⟨redactQuery (fullUrl ctx3 ⟨k, kid, 2⟩), (s3 : Int), b3⟩]⟩,
      .httpError s3⟩ := by
    show performCall ctx3 r2.client r2.db [.resp s3 b3] = _
    rw [e2]
    rw [auth_status_call ctx3 ⟨k, kid, 2⟩ db0 s3 b3 hk hd hs3]
    norm_num
  refine ⟨by rw [e1], by rw [e2], by rw [e3], by rw [e1], by rw [e2],
    by rw [e3], by rw [e3], ?_, ?_⟩
  · rw [e3]
    exact lookupKeyRow_mark db0 kid k ctx3.nowStr
  · intro ctx4 trace4
    rw [e3]
    simp [performCall, hk, isKeyDisabled_mark db0 kid k ctx3.nowStr ht]

/-- Witness for C1 at concrete inputs. -/
theorem c1_three_strikes_witness :
    (("SECRET" : String) ≠ "" ∧ isKeyDisabled ⟨[]⟩ "1" = false ∧
      ((401 : Nat) = 401 ∨ (401 : Nat) = 403) ∧ ("T3" : String) ≠ "") ∧
    (let r1 := performCall ⟨"b", "", "T1"⟩ ⟨"SECRET", "1", 0⟩ ⟨[]⟩
        [.resp 401 .null]
     let r2 := performCall ⟨"b", "", "T2"⟩ r1.client r1.db [.resp 401 .null]
     let r3 := performCall ⟨"b", "", "T3"⟩ r2.client r2.db [.resp 403 .null]
     r1.outcome = .httpError 401 ∧ r2.outcome = .httpError 401 ∧
     r3.outcome = .httpError 403 ∧
     r1.db = ⟨[]⟩ ∧ r2.db = ⟨[]⟩ ∧
     r3.client.authFailures = 3 ∧
     r3.db = markKeyDisabled ⟨[]⟩ "1" "SECRET" "T3" ∧
     lookupKeyRow r3.db "1" = some ⟨"SECRET", "T3"⟩ ∧
     ∀ ctx4 trace4, performCall ctx4 r3.client r3.db trace4 =
       ⟨r3.client, r3.db, ⟨0, 0, 0, []⟩, .authDisabled⟩) :=
  ⟨⟨by decide, by decide, Or.inl rfl, by decide⟩,
   c1_three_strikes ⟨"b", "", "T1"⟩ ⟨"b", "", "T2"⟩ ⟨"b", "", "T3"⟩
     "SECRET" "1" ⟨[]⟩ 401 401 403 .null .null .null
     (by decide) (by decide) (Or.inl rfl) (Or.inl rfl) (Or.inr rfl) (by decide)⟩

/-! ### Redaction lemmas (towards C8) -/

lemma hasPrefixC_append_self (p t : List Char) : hasPrefixC p (p ++ t) = true := by
  induction p with
  | nil => rfl
  | cons c cs ih => simp [hasPrefixC, ih]

lemma hasPrefixC_append_right (pat : List Char) :
    ∀ r q : List Char, hasPrefixC pat r = true → hasPrefixC pat (r ++ q) = true := by
  induction pat with
  | nil => intro r q h; rfl
  | cons a as ih =>
    intro r q h
    cases r with
    | nil => simp [hasPrefixC] at h
    | cons b bs =>
      simp only [hasPrefixC, Bool.and_eq_true] at h
      simp only [List.cons_append, hasPrefixC, Bool.and_eq_true]
      exact ⟨h.1, ih bs q h.2⟩

lemma containsPat_keyPat_append (s q : List Char)
    (h : containsPat keyPat s = true) :
    containsPat keyPat (s ++ q) = true := by
  induction s with
  | nil => simp [containsPat, keyPat, hasPrefixC] at h
  | cons c cs ih =>
    simp only [containsPat, Bool.or_eq_true] at h
    simp only [List.cons_append, containsPat, Bool.or_eq_true]
    rcases h with h | h
    · exact Or.inl (hasPrefixC_append_right keyPat (c :: cs) q h)
    · exact Or.inr (ih h)

lemma keyPat_no_overlap (s t : List Char)
    (h : hasPrefixC keyPat (s ++ (keyPat ++ t)) = true) :
    s = [] ∨ hasPrefixC keyPat s = true := by
  rcases s with _ | ⟨c1, _ | ⟨c2, _ | ⟨c3, _ | ⟨c4, r⟩⟩⟩⟩
  · exact Or.inl rfl
  · exfalso
    simp only [keyPat, List.cons_append, List.nil_append, hasPrefixC,
      Bool.and_eq_true, beq_iff_eq] at h
    exact absurd h.2.1 (by decide)
  · exfalso
    simp only [keyPat, List.cons_append, List.nil_append, hasPrefixC,
      Bool.and_eq_true, beq_iff_eq] at h
    exact absurd h.2.2.1 (by decide)
  · exfalso
    simp only [keyPat, List.cons_append, List.nil_append, hasPrefixC,
      Bool.and_eq_true, beq_iff_eq] at h
    exact absurd h.2.2.2.1 (by decide)
  · right
    simp only [keyPat, List.cons_append, hasPrefixC, Bool.and_eq_true,
      beq_iff_eq] at h ⊢
    exact ⟨h.1, h.2.1, h.2.2.1, h.2.2.2.1, trivial⟩

lemma splitBefore_cons (pat : List Char) (c : Char) (rest : List Char) :
    splitBefore pat (c :: rest) =
      if hasPrefixC pat (c :: rest) then [] else c :: splitBefore pat rest := rfl

lemma containsPat_cons (pat : List Char) (c : Char) (rest : List Char) :
    containsPat pat (c :: rest) =
      (hasPrefixC pat (c :: rest) || containsPat pat rest) := rfl

lemma containsPat_marker (p t : List Char) :
    containsPat keyPat (p ++ (keyPat ++ t)) = true := by
  induction p with
  | nil =>
    show containsPat keyPat ('k' :: (['e', 'y', '='] ++ t)) = true
    rw [containsPat_cons,
      show ('k' : Char) :: (['e', 'y', '='] ++ t) = keyPat ++ t from rfl,
      hasPrefixC_append_self]
    rfl
  | cons c cs ih =>
    show containsPat keyPat (c :: (cs ++ (keyPat ++ t))) = true
    rw [containsPat_cons, ih]
    simp

lemma splitBefore_marker (p t : List Char)
    (hp : containsPat keyPat p = false) :
    splitBefore keyPat (p ++ (keyPat ++ t)) = p := by
  induction p with
  | nil =>
    show splitBefore keyPat ('k' :: (['e', 'y', '='] ++ t)) = []
    rw [splitBefore_cons,
      show ('k' : Char) :: (['e', 'y', '='] ++ t) = keyPat ++ t from rfl,
      hasPrefixC_append_self]
    rfl
  | cons c cs ih =>
    have hp2 : hasPrefixC keyPat (c :: cs) = false ∧
        containsPat keyPat cs = false := by
      rw [containsPat_cons] at hp
      simpa [Bool.or_eq_false_iff] using hp
    show splitBefore keyPat (c :: (cs ++ (keyPat ++ t))) = c :: cs
    rw [splitBefore_cons]
    have hg : hasPrefixC keyPat (c :: (cs ++ (keyPat ++ t))) = false := by
      by_contra hgg
      rw [Bool.not_eq_false] at hgg
      rcases keyPat_no_overlap (c :: cs) t hgg with h0 | h0
      · exact absurd h0 (by simp)
      · rw [hp2.1] at h0
        exact absurd h0 (by simp)
    rw [hg]
    simp only [Bool.false_eq_true, if_false]
    rw [ih hp2.2]

lemma redactQuery_marker (base k suffix : String)
    (hb : containsPat keyPat (base ++ "?").data = false) :
    redactQuery (base ++ "?key=" ++ k ++ suffix) = base ++ "?key=REDACTED" := by
  have e1 : ("?key=" : String).data = '?' :: keyPat := rfl
  have hdata : (base ++ "?key=" ++ k ++ suffix).data =
      (base ++ "?").data ++ (keyPat ++ (k.data ++ suffix.data)) := by
    simp [String.data_append, e1, show ("?" : String).data = ['?'] from rfl,
      keyPat, List.append_assoc]
  have hc : containsPat keyPat (base ++ "?key=" ++ k ++ suffix).data = true := by
    rw [hdata]
    exact containsPat_marker _ _
  have hs : splitBefore keyPat (base ++ "?key=" ++ k ++ suffix).data =
      (base ++ "?").data := by
    rw [hdata]
    exact splitBefore_marker _ _ hb
  rw [redactQuery, hc]
  simp only [if_true]
  apply String.ext
  show splitBefore keyPat (base ++ "?key=" ++ k ++ suffix).data ++ redactedSeg =
    (base ++ "?key=REDACTED").data
  rw [hs]
  simp [String.data_append, show ("?" : String).data = ['?'] from rfl,
    show ("?key=REDACTED" : String).data = '?' :: redactedSeg from rfl,
    redactedSeg, keyPat, List.append_assoc]

lemma redactQuery_no_marker (base : String)
    (hb : containsPat keyPat (base ++ "?").data = false) :
    redactQuery base = base := by
  have h1 : containsPat keyPat base.data = false := by
    by_contra h
    rw [Bool.not_eq_false] at h
    have h2 := containsPat_keyPat_append base.data ("?" : String).data h
    rw [← String.data_append, hb] at h2
    exact absurd h2 (by simp)
  simp [redactQuery, h1]

lemma requestLoop_audit_urls (ctx : CallCtx) (trace : List Exchange) :
    ∀ (c : Client) (db : Db) (attempt : Nat) (a : AuditRecord),
      a ∈ (requestLoop ctx c db attempt trace).log.audits →
      a.url = redactQuery (fullUrl ctx c) ∨ a.url = redactQuery ctx.baseUrl := by
  induction trace with
  | nil =>
    intro c db attempt a ha
    simp [requestLoop] at ha
  | cons e rest ih =>
    intro c db attempt a ha
    cases e with
    | netFail msg =>
      simp only [requestLoop] at ha
      split at ha
      · simp only [List.mem_singleton] at ha
        right
        rw [ha]
      · simp only [addIter, CallLog.app, List.nil_append] at ha
        exact ih c db (attempt + 1) a ha
    | resp status body =>
      simp only [requestLoop] at ha
      split at ha
      · split at ha
        · simp only [List.mem_singleton] at ha
          left
          rw [ha]
        · simp only [addIter, CallLog.app, List.singleton_append,
            List.mem_cons] at ha
          rcases ha with ha | ha
          · left
            rw [ha]
          · exact ih c db (attempt + 1) a ha
      · split at ha
        · simp only [List.mem_singleton] at ha
          left
          rw [ha]
        · simp only [List.mem_singleton] at ha
          left
          rw [ha]

lemma classifyBody_outcome_state_independent (ctx1 ctx2 : CallCtx)
    (c1 c2 : Client) (db1 db2 : Db) (body : Json) :
    (classifyBody ctx1 c1 db1 body).2.2 = (classifyBody ctx2 c2 db2 body).2.2 := by
  unfold classifyBody
  (repeat' split) <;> simp_all

lemma requestLoop_log_key_independent (base suffix nowS : String)
    (hb : containsPat keyPat (base ++ "?").data = false)
    (trace : List Exchange) :
    ∀ (k1 k2 id1 id2 : String) (n : Nat) (db1 db2 : Db) (attempt : Nat),
      (requestLoop ⟨base, suffix, nowS⟩ ⟨k1, id1, n⟩ db1 attempt trace).log =
        (requestLoop ⟨base, suffix, nowS⟩ ⟨k2, id2, n⟩ db2 attempt trace).log ∧
      (requestLoop ⟨base, suffix, nowS⟩ ⟨k1, id1, n⟩ db1 attempt trace).outcome =
        (requestLoop ⟨base, suffix, nowS⟩ ⟨k2, id2, n⟩ db2 attempt trace).outcome := by
  have hred : ∀ (k id : String) (m : Nat),
      redactQuery (fullUrl ⟨base, suffix, nowS⟩ ⟨k, id, m⟩) =
        base ++ "?key=REDACTED" := by
    intro k id m
    exact redactQuery_marker base k suffix hb
  induction trace with
  | nil =>
    intro k1 k2 id1 id2 n db1 db2 attempt
    exact ⟨rfl, rfl⟩
  | cons e rest ih =>
    intro k1 k2 id1 id2 n db1 db2 attempt
    cases e with
    | netFail msg =>
      by_cases hc : maxAttempts ≤ attempt + 1
      · simp [requestLoop, hc]
      · have h2 := ih k1 k2 id1 id2 n db1 db2 (attempt + 1)
        simp [requestLoop, hc, addIter, CallLog.app, h2.1, h2.2]
    | resp status body =>
      by_cases hs : status = 429 ∨ (500 ≤ status ∧ status < 600)
      · by_cases hc : maxAttempts ≤ attempt + 1
        · simp [requestLoop, hs, hc, hred]
        · have h2 := ih k1 k2 id1 id2 n db1 db2 (attempt + 1)
          simp [requestLoop, hs, hc, addIter, CallLog.app, h2.1, h2.2, hred]
      · by_cases ha : status = 401 ∨ status = 403
        · simp [requestLoop, hs, ha, hred]
        · simp only [requestLoop, hs, ha, if_false]
          refine ⟨?_, ?_⟩
          · simp [hred]
          · exact classifyBody_outcome_state_independent _ _ _ _ _ _ _

/-- C8: the credential value never reaches a log line or audit record — every
URL written is redacted from the `key=` query segment onward to the fixed
marker, so each audited URL is either the base URL with `key=REDACTED` or the
bare base URL (sentinel record), and the entire observable log and outcome of
a call are identical for any two non-empty credential values (the output does
not depend on the credential). -/
theorem c8_redaction (base suffix nowS k1 k2 id : String) (n : Nat) (db : Db)
    (trace : List Exchange)
    (hb : containsPat keyPat (base ++ "?").data = false)
    (h1 : k1 ≠ "") (h2 : k2 ≠ "") :
    ((performCall ⟨base, suffix, nowS⟩ ⟨k1, id, n⟩ db trace).log =
      (performCall ⟨base, suffix, nowS⟩ ⟨k2, id, n⟩ db trace).log) ∧
    ((performCall ⟨base, suffix, nowS⟩ ⟨k1, id, n⟩ db trace).outcome =
      (performCall ⟨base, suffix, nowS⟩ ⟨k2, id, n⟩ db trace).outcome) ∧
    (∀ a ∈ (performCall ⟨base, suffix, nowS⟩ ⟨k1, id, n⟩ db trace).log.audits,
      a.url = base ++ "?key=REDACTED" ∨ a.url = base) := by
  by_cases hd : isKeyDisabled db id
  · simp [performCall, h1, h2, hd]
  · have hloop := requestLoop_log_key_independent base suffix nowS hb trace
      k1 k2 id id n db db 0
    have hurls := requestLoop_audit_urls ⟨base, suffix, nowS⟩ trace
      ⟨k1, id, n⟩ db 0
    refine ⟨?_, ?_, ?_⟩
    · simpa [performCall, h1, h2, hd] using hloop.1
    · simpa [performCall, h1, h2, hd] using hloop.2
    · intro a ha
      have ha2 : a ∈ (requestLoop ⟨base, suffix, nowS⟩ ⟨k1, id, n⟩ db 0
          trace).log.audits := by
        simpa [performCall, h1, h2, hd] using ha
      rcases hurls a ha2 with h | h
      · left
        rw [h]
        exact redactQuery_marker base k1 suffix hb
      · right
        rw [h]
        exact redactQuery_no_marker base hb

/-- Witness for C8 at concrete inputs. -/
theorem c8_redaction_witness :
    (containsPat keyPat ("https://api.torn.com/user/1" ++ "?").data = false ∧
      ("SECRET1" : String) ≠ "" ∧ ("SECRET2" : String) ≠ "") ∧
    (((performCall ⟨"https://api.torn.com/user/1", "&selections=bars", "TS"⟩
        ⟨"SECRET1", "1", 0⟩ ⟨[]⟩ [.resp 200 .null]).log =
      (performCall ⟨"https://api.torn.com/user/1", "&selections=bars", "TS"⟩
        ⟨"SECRET2", "1", 0⟩ ⟨[]⟩ [.resp 200 .null]).log) ∧
    ((performCall ⟨"https://api.torn.com/user/1", "&selections=bars", "TS"⟩
        ⟨"SECRET1", "1", 0⟩ ⟨[]⟩ [.resp 200 .null]).outcome =
      (performCall ⟨"https://api.torn.com/user/1", "&selections=bars", "TS"⟩
        ⟨"SECRET2", "1", 0⟩ ⟨[]⟩ [.resp 200 .null]).outcome) ∧
    (∀ a ∈ (performCall ⟨"https://api.torn.com/user/1", "&selections=bars", "TS"⟩
        ⟨"SECRET1", "1", 0⟩ ⟨[]⟩ [.resp 200 .null]).log.audits,
      a.url = "https://api.torn.com/user/1" ++ "?key=REDACTED" ∨
      a.url = "https://api.torn.com/user/1")) :=
  ⟨⟨by decide, by decide, by decide⟩,
   c8_redaction "https://api.torn.com/user/1" "&selections=bars" "TS"
     "SECRET1" "SECRET2" "1" 0 ⟨[]⟩ [.resp 200 .null]
     (by decide) (by decide) (by decide)⟩

/-! ### Limiter lemmas -/

lemma refill_capacity (l : Limiter) (t : ℚ) :
    (l.refill t).capacity = l.capacity := by
  unfold Limiter.refill
  split <;> rfl

lemma refill_refillRate (l : Limiter) (t : ℚ) :
    (l.refill t).refillRate = l.refillRate := by
  unfold Limiter.refill
  split <;> rfl

lemma refill_minSpacing (l : Limiter) (t : ℚ) :
    (l.refill t).minSpacing = l.minSpacing := by
  unfold Limiter.refill
  split <;> rfl

lemma refill_jitterFraction (l : Limiter) (t : ℚ) :
    (l.refill t).jitterFraction = l.jitterFraction := by
  unfold Limiter.refill
  split <;> rfl

lemma refill_lastAcquire (l : Limiter) (t : ℚ) :
    (l.refill t).lastAcquire = l.lastAcquire := by
  unfold Limiter.refill
  split <;> rfl

lemma tryAcquire_capacity (l : Limiter) (t g : ℚ) :
    (l.tryAcquire t g).1.capacity = l.capacity := by
  unfold Limiter.tryAcquire
  split <;> simp [refill_capacity]

lemma tryAcquire_refillRate (l : Limiter) (t g : ℚ) :
    (l.tryAcquire t g).1.refillRate = l.refillRate := by
  unfold Limiter.tryAcquire
  split <;> simp [refill_refillRate]

lemma tryAcquire_minSpacing (l : Limiter) (t g : ℚ) :
    (l.tryAcquire t g).1.minSpacing = l.minSpacing := by
  unfold Limiter.tryAcquire
  split <;> simp [refill_minSpacing]

lemma tryAcquire_jitterFraction (l : Limiter) (t g : ℚ) :
    (l.tryAcquire t g).1.jitterFraction = l.jitterFraction := by
  unfold Limiter.tryAcquire
  split <;> simp [refill_jitterFraction]

lemma refill_inv (l : Limiter) (t : ℚ) (h1 : 0 ≤ l.tokens)
    (h2 : l.tokens ≤ l.capacity) (h3 : 0 < l.refillRate) :
    0 ≤ (l.refill t).tokens ∧ (l.refill t).tokens ≤ l.capacity := by
  unfold Limiter.refill
  split
  · exact ⟨h1, h2⟩
  · rename_i hne
    have helapsed : 0 < t - l.lastRefill := by
      push_neg at hne
      linarith
    constructor
    · show 0 ≤ min l.capacity (l.tokens + (t - l.lastRefill) * l.refillRate)
      refine le_min (le_trans h1 h2) ?_
      have hp : 0 ≤ (t - l.lastRefill) * l.refillRate :=
        le_of_lt (mul_pos helapsed h3)
      linarith
    · exact min_le_left _ _

lemma tryAcquire_inv (l : Limiter) (t g : ℚ) (h1 : 0 ≤ l.tokens)
    (h2 : l.tokens ≤ l.capacity) (h3 : 0 < l.refillRate) :
    0 ≤ (l.tryAcquire t g).1.tokens ∧ (l.tryAcquire t g).1.tokens ≤ l.capacity := by
  have hr := refill_inv l t h1 h2 h3
  unfold Limiter.tryAcquire
  split
  · rename_i hcond
    constructor
    · show 0 ≤ (l.refill t).tokens - 1
      linarith [hcond.1]
    · show (l.refill t).tokens - 1 ≤ l.capacity
      linarith [hr.2]
  · exact hr

lemma runEvents_bounds (events : List LimiterEvent) :
    ∀ l : Limiter, 0 ≤ l.tokens → l.tokens ≤ l.capacity → 0 < l.refillRate →
      0 ≤ (runEvents l events).1.tokens ∧
      (runEvents l events).1.tokens ≤ (runEvents l events).1.capacity := by
  induction events with
  | nil =>
    intro l h1 h2 h3
    exact ⟨h1, h2⟩
  | cons e es ih =>
    intro l h1 h2 h3
    cases e with
    | refillAt t =>
      have h := refill_inv l t h1 h2 h3
      simp only [runEvents, runStep]
      exact ih (l.refill t) h.1 (by rw [refill_capacity]; exact h.2)
        (by rw [refill_refillRate]; exact h3)
    | acquireAt t g =>
      have h := tryAcquire_inv l t g h1 h2 h3
      simp only [runEvents, runStep]
      exact ih (l.tryAcquire t g).1 h.1 (by rw [tryAcquire_capacity]; exact h.2)
        (by rw [tryAcquire_refillRate]; exact h3)

lemma runEvents_spacing (events : List LimiterEvent) :
    ∀ l : Limiter, (∀ e ∈ events, eventOk e = true) →
      List.Chain (fun a b => l.minSpacing ≤ b - a) l.lastAcquire
        (runEvents l events).2 ∧
      (runEvents l events).1.lastAcquire =
        lastGrant l.lastAcquire (runEvents l events).2 ∧
      (runEvents l events).1.minSpacing = l.minSpacing ∧
      (runEvents l events).1.jitterFraction = l.jitterFraction := by
  induction events with
  | nil =>
    intro l h
    exact ⟨List.Chain.nil, rfl, rfl, rfl⟩
  | cons e es ih =>
    intro l h
    have he : eventOk e = true := h e (List.mem_cons_self e es)
    have hes : ∀ x ∈ es, eventOk x = true := fun x hx =>
      h x (List.mem_cons_of_mem e hx)
    cases e with
    | refillAt t =>
      have h2 := ih (l.refill t) hes
      rw [refill_minSpacing, refill_lastAcquire, refill_jitterFraction] at h2
      simp only [runEvents, runStep, List.nil_append]
      exact h2
    | acquireAt t g =>
      have htg : t ≤ g := of_decide_eq_true he
      by_cases hg : 1 ≤ (l.refill t).tokens ∧
          (l.refill t).minSpacing - (t - (l.refill t).lastAcquire) ≤ 0
      · have hstep : l.tryAcquire t g =
            ({ (l.refill t) with
                tokens := (l.refill t).tokens - 1
                lastAcquire := g }, true) := by
          unfold Limiter.tryAcquire
          rw [if_pos hg]
        have h2 := ih ({ (l.refill t) with
            tokens := (l.refill t).tokens - 1
            lastAcquire := g }) hes
        have hms : ({ (l.refill t) with
            tokens := (l.refill t).tokens - 1
            lastAcquire := g } : Limiter).minSpacing = l.minSpacing :=
          refill_minSpacing l t
        have hjf : ({ (l.refill t) with
            tokens := (l.refill t).tokens - 1
            lastAcquire := g } : Limiter).jitterFraction = l.jitterFraction :=
          refill_jitterFraction l t
        have hrel : l.minSpacing ≤ g - l.lastAcquire := by
          have hx := hg.2
          rw [refill_minSpacing, refill_lastAcquire] at hx
          linarith
        simp only [runEvents, runStep, hstep, if_true, List.cons_append,
          List.nil_append]
        refine ⟨List.Chain.cons hrel
          (List.Chain.imp (fun a b hab => ?_) h2.1),
          h2.2.1, h2.2.2.1.trans hms, h2.2.2.2.trans hjf⟩
        rw [← hms]
        exact hab
      · have hstep : l.tryAcquire t g = (l.refill t, false) := by
          unfold Limiter.tryAcquire
          rw [if_neg hg]
        have h2 := ih (l.refill t) hes
        rw [refill_minSpacing, refill_lastAcquire, refill_jitterFraction] at h2
        simp only [runEvents, runStep, hstep, if_false, List.nil_append]
        exact h2

lemma replicate_grants (t : ℚ) (k : Nat) :
    ∀ l : Limiter, l.minSpacing = 0 → l.lastRefill = t → l.lastAcquire ≤ t →
      (k : ℚ) ≤ l.tokens →
      (runEvents l (List.replicate k (.acquireAt t t))).2.length = k := by
  induction k with
  | zero =>
    intro l h1 h2 h3 h4
    rfl
  | succ m ih =>
    intro l h1 h2 h3 h4
    have hrefl : l.refill t = l := by
      unfold Limiter.refill
      rw [h2]
      simp
    have hcond : 1 ≤ (l.refill t).tokens ∧
        (l.refill t).minSpacing - (t - (l.refill t).lastAcquire) ≤ 0 := by
      rw [hrefl, h1]
      constructor
      · have hm : (0 : ℚ) ≤ (m : ℚ) := Nat.cast_nonneg m
        have : ((m + 1 : Nat) : ℚ) = (m : ℚ) + 1 := by push_cast; ring
        rw [this] at h4
        linarith
      · linarith
    have hstep : l.tryAcquire t t =
        ({ l with
            tokens := l.tokens - 1
            lastAcquire := t }, true) := by
      unfold Limiter.tryAcquire
      rw [if_pos hcond, hrefl]
    rw [List.replicate_succ]
    simp only [runEvents, runStep, hstep, if_true, List.cons_append,
      List.nil_append, List.length_cons]
    rw [ih ({ l with
        tokens := l.tokens - 1
        lastAcquire := t })
      h1 h2 (le_refl t) ?_]
    have : ((m + 1 : Nat) : ℚ) = (m : ℚ) + 1 := by push_cast; ring
    rw [this] at h4
    show (m : ℚ) ≤ l.tokens - 1
    linarith

/-! ### Claim theorems: the limiter -/

/-- C3: on one limiter instance run from construction, the gap between any
two consecutive grants (and from construction time 0 to the first grant) is
at least minSpacing * (1 - jitterFraction): the grant guard requires the
full minSpacing to have elapsed since the previous grant — jitter only
perturbs sleep durations — and with a nonnegative jitter fraction the
jittered floor is no larger than minSpacing itself. -/
theorem c3_min_spacing (cap : Int) (rate ms jf t0 : ℚ)
    (events : List LimiterEvent)
    (hjf : 0 ≤ jf) (hok : ∀ e ∈ events, eventOk e = true) :
    List.Chain
      (fun a b =>
        (Limiter.init cap rate ms jf t0).minSpacing *
          (1 - (Limiter.init cap rate ms jf t0).jitterFraction) ≤ b - a)
      (Limiter.init cap rate ms jf t0).lastAcquire
      (runEvents (Limiter.init cap rate ms jf t0) events).2 := by
  have h := (runEvents_spacing events (Limiter.init cap rate ms jf t0) hok).1
  refine List.Chain.imp (fun a b hab => ?_) h
  have hms : 0 ≤ (Limiter.init cap rate ms jf t0).minSpacing :=
    le_max_left 0 ms
  have hjf2 : (Limiter.init cap rate ms jf t0).jitterFraction = jf := rfl
  have hle : (Limiter.init cap rate ms jf t0).minSpacing *
      (1 - (Limiter.init cap rate ms jf t0).jitterFraction) ≤
      (Limiter.init cap rate ms jf t0).minSpacing := by
    rw [hjf2]
    exact mul_le_of_le_one_right hms (by linarith)
  exact le_trans hle hab

/-- Witness for C3 at concrete inputs. -/
theorem c3_min_spacing_witness :
    ((0 : ℚ) ≤ 3 / 20 ∧
      (∀ e ∈ ([.acquireAt 1 2, .refillAt 3, .acquireAt 5 5] :
          List LimiterEvent), eventOk e = true)) ∧
    List.Chain
      (fun a b => (Limiter.init 60 1 1 (3 / 20) 0).minSpacing *
        (1 - (Limiter.init 60 1 1 (3 / 20) 0).jitterFraction) ≤ b - a)
      (Limiter.init 60 1 1 (3 / 20) 0).lastAcquire
      (runEvents (Limiter.init 60 1 1 (3 / 20) 0)
        [.acquireAt 1 2, .refillAt 3, .acquireAt 5 5]).2 :=
  ⟨⟨by norm_num, by
      intro e he
      fin_cases he <;> simp [eventOk]⟩,
   c3_min_spacing 60 1 1 (3 / 20) 0 _ (by norm_num) (by
      intro e he
      fin_cases he <;> simp [eventOk])⟩

/-- C4: for every limiter constructed by `Limiter.init` and every sequence
of refill and grant-check steps, the token count stays within
0 ≤ tokens ≤ capacity: refill caps at capacity and a token is debited only
when tokens ≥ 1. -/
theorem c4_token_bounds (cap : Int) (rate ms jf t0 : ℚ)
    (events : List LimiterEvent) :
    0 ≤ (runEvents (Limiter.init cap rate ms jf t0) events).1.tokens ∧
    (runEvents (Limiter.init cap rate ms jf t0) events).1.tokens ≤
      (runEvents (Limiter.init cap rate ms jf t0) events).1.capacity := by
  apply runEvents_bounds
  · show (0 : ℚ) ≤ ((max 1 cap : Int) : ℚ)
    have h : (1 : Int) ≤ max 1 cap := le_max_left 1 cap
    exact_mod_cast le_trans (by norm_num) h
  · exact le_refl _
  · show 0 < max (1 / 1000 : ℚ) rate
    exact lt_of_lt_of_le (by norm_num) (le_max_left _ _)

/-- C10: the client constructor clamps the limiter capacity into [1, 100]
(the upper cap of 100 is applied before the limiter's own ≥ 1 clamp), sets
the refill rate to capacity / 60 tokens per second (the 0.001 floor never
binds), initializes the bucket full, and — spacing permitting (min spacing
0) — a fresh limiter grants up to capacity permits with no refill time
elapsed. -/
theorem c10_constructor (m : Int) (s t0 : ℚ) :
    1 ≤ clientCapacity m ∧ clientCapacity m ≤ 100 ∧
    (clientLimiter m s t0).capacity = ((clientCapacity m : Int) : ℚ) ∧
    (clientLimiter m s t0).refillRate = ((clientCapacity m : Int) : ℚ) / 60 ∧
    (clientLimiter m s t0).tokens = (clientLimiter m s t0).capacity ∧
    (∀ (k : Nat) (t : ℚ), 0 ≤ t → (k : ℚ) ≤ ((clientCapacity m : Int) : ℚ) →
      (runEvents (clientLimiter m 0 t)
        (List.replicate k (.acquireAt t t))).2.length = k) := by
  have h1 : 1 ≤ clientCapacity m := le_min (by norm_num) (le_max_left 1 m)
  have hcap : (max 1 (clientCapacity m) : Int) = clientCapacity m :=
    max_eq_right h1
  have hcapQ : (1 : ℚ) ≤ ((clientCapacity m : Int) : ℚ) := by
    exact_mod_cast h1
  refine ⟨h1, min_le_left _ _, ?_, ?_, rfl, ?_⟩
  · show ((max 1 (clientCapacity m) : Int) : ℚ) = _
    rw [hcap]
  · show max (1 / 1000 : ℚ) (((clientCapacity m : Int) : ℚ) / 60) = _
    refine max_eq_right ?_
    linarith
  · intro k t ht hk
    apply replicate_grants
    · show max (0 : ℚ) 0 = 0
      norm_num
    · rfl
    · show (0 : ℚ) ≤ t
      exact ht
    · show (k : ℚ) ≤ ((max 1 (clientCapacity m) : Int) : ℚ)
      rw [hcap]
      exact hk

/-- Witness for C10 at concrete inputs. -/
theorem c10_constructor_witness :
    ((0 : ℚ) ≤ 0 ∧ ((100 : Nat) : ℚ) ≤ ((clientCapacity 250 : Int) : ℚ)) ∧
    (1 ≤ clientCapacity 250 ∧ clientCapacity 250 ≤ 100 ∧
     (clientLimiter 250 1 0).capacity = ((clientCapacity 250 : Int) : ℚ) ∧
     (clientLimiter 250 1 0).refillRate =
       ((clientCapacity 250 : Int) : ℚ) / 60 ∧
     (clientLimiter 250 1 0).tokens = (clientLimiter 250 1 0).capacity ∧
     (runEvents (clientLimiter 250 0 0)
       (List.replicate 100 (.acquireAt 0 0))).2.length = 100) := by
  have h := c10_constructor 250 1 0
  refine ⟨⟨le_refl 0, ?_⟩, h.1, h.2.1, h.2.2.1, h.2.2.2.1, h.2.2.2.2.1, ?_⟩
  · norm_num [clientCapacity]
  · exact h.2.2.2.2.2 100 0 (le_refl 0) (by norm_num [clientCapacity])

end Torn

